import Mathlib

/-!
# Verification of the `url_crawler` crawl core

A shallow embedding of the repository's crawl orchestration engine
(`src/core/crawler.py`, `src/core/fetcher.py`, `src/constants.py`) together
with proofs and refutations of the specification's claims about it.

Conventions of the embedding:
* Python strings are Lean `String`s; all character-level work is done on
  `String.data` (`List Char`) so that every definition evaluates by kernel
  reduction.
* Python sets of URLs are `List String` with `List.contains` membership
  (string equality is the membership test in both).
* Python dicts keyed by strings are association lists (`List (String × _)`);
  insertion appends (Python dicts preserve insertion order), lookup finds the
  first matching key.
* `asyncio` concurrency is modelled by an explicit transition system over the
  semaphore counters and the per-task control points of `fetch_url`
  (see `CrawlerSem` / `CStep` below).
* Machine integers are `Nat`: every counter in the source only ever grows.
-/

/-! ## String utilities

The source uses `urllib.parse.urldefrag` / `urlparse().netloc` / `.path`,
`str.endswith`, `str.split('.')`, `'.'.join`, the substring operator `in`,
and `str.lower`.  Each is embedded as a `List Char` computation.
-/

/-- Python `a in b` (substring containment): `needle` occurs contiguously in
`hay`. -/
def str_contains_sub (hay needle : String) : Bool :=
  decide (needle.data <:+: hay.data)

/-- Python `s.endswith(suffix)`. -/
def str_endswith (s ending : String) : Bool :=
  decide (ending.data <:+ s.data)

/-- Python `urldefrag(url)[0]`: everything before the first `'#'`
(the whole string when there is no fragment). -/
def urldefrag (url : String) : String :=
  String.mk (url.data.takeWhile (fun c => c != '#'))

/-- Scan for the first `"://"` and return the characters after it.
Helper for `netloc`/`urlpath`; the crawler only ever feeds absolute
`http://`/`https://` URLs to `urlparse` (enforced by the CLI layer). -/
def after_scheme : List Char → Option (List Char)
  | [] => none
  | ':' :: '/' :: '/' :: rest => some rest
  | _ :: rest => after_scheme rest

/-- Python `urlparse(url).netloc` for absolute http(s) URLs: the text between
`"://"` and the next `'/'`, `'?'` or `'#'`; empty when the URL has no
authority part. -/
def netloc (url : String) : String :=
  match after_scheme url.data with
  | some rest => String.mk (rest.takeWhile (fun c => c != '/' && c != '?' && c != '#'))
  | none => ""

/-- Python `urlparse(url).path` for absolute http(s) URLs: from the first
`'/'` after the authority up to (not including) `'?'` or `'#'`. -/
def urlpath (url : String) : String :=
  match after_scheme url.data with
  | some rest =>
      String.mk ((rest.dropWhile (fun c => c != '/' && c != '?' && c != '#')).takeWhile
        (fun c => c != '?' && c != '#'))
  | none => String.mk (url.data.takeWhile (fun c => c != '?' && c != '#'))

/-- Python `domain.split('.')` (splitting on every dot, empty pieces kept). -/
def splitOnDot : List Char → List (List Char)
  | [] => [[]]
  | c :: cs =>
      if c = '.' then [] :: splitOnDot cs
      else
        match splitOnDot cs with
        | g :: gs => (c :: g) :: gs
        | [] => [[c]]

/-- Python `'.'.join(groups)`. -/
def joinDot : List (List Char) → List Char
  | [] => []
  | [g] => g
  | g :: gs => g ++ '.' :: joinDot gs

/-- Source `fetcher.py` line 35: `'.'.join(domain.split('.')[-2:])` — the naive
"base domain" (last two dot-separated labels, or the whole host when it has
fewer). -/
def base_domain (domain : String) : String :=
  String.mk
    (joinDot ((splitOnDot domain.data).drop ((splitOnDot domain.data).length - 2)))

/-! ## Orchestrator (`src/core/crawler.py`) -/

/-- Source `crawler.py` 16-34.  Admission predicate, tests in source order:
fragment-stripped form visited; `depth > max_depth or url in visited`;
allow-list (skipped when the list is empty, Python falsiness); extension
blacklist against the full URL string (skipped when empty). -/
def should_crawl_url (url : String) (depth max_depth : Nat)
    (visited_urls allowed_domains blacklist : List String) : Bool :=
  if visited_urls.contains (urldefrag url) then false
  else if depth > max_depth || visited_urls.contains url then false
  else if !allowed_domains.isEmpty && !(allowed_domains.contains (netloc url)) then false
  else if !blacklist.isEmpty && blacklist.any (fun ext => str_endswith url ext) then false
  else true

/-- Source `crawler.py` 61-93, `process_url_queue` together with the
`create_task_for_url` calls it makes.  The queue is consumed FIFO while
`len(tasks) < rate_limit`; an accepted URL is added to `visited_urls`
(the raw URL, fragment included) and a task `(url, depth)` is appended.
Returns `(tasks created, visited set, unconsumed queue)`. -/
def process_url_queue (queue : List (String × Nat)) (visited_urls : List String)
    (max_depth : Nat) (allowed_domains blacklist : List String)
    (rate_limit : Nat) (tasks : List (String × Nat)) :
    List (String × Nat) × List String × List (String × Nat) :=
  match queue with
  | [] => (tasks, visited_urls, [])
  | (url, depth) :: rest =>
      if tasks.length < rate_limit then
        if should_crawl_url url depth max_depth visited_urls allowed_domains blacklist then
          process_url_queue rest (visited_urls ++ [url]) max_depth allowed_domains
            blacklist rate_limit (tasks ++ [(url, depth)])
        else
          process_url_queue rest visited_urls max_depth allowed_domains
            blacklist rate_limit tasks
      else (tasks, visited_urls, queue)

/-- Source `crawler.py` 134-136: `if not allowed_domains:` replaces an absent or
empty allow-list with the singleton list holding the seed URL's host. -/
def effective_allowed_domains (start_url : String)
    (allowed_domains : List String) : List String :=
  if allowed_domains.isEmpty then [netloc start_url] else allowed_domains

/-! ## Statistics (`src/utils/stats.py`, mutated by `src/core/fetcher.py`) -/

/-- Per-domain entry of `stats['domain_statistics']` as initialised at
`fetcher.py` 27-34 (timing fields, which never feed back into control flow,
are omitted).  `consecutive_429s` is absent from the fresh dict and read with
`.get(_, 0)`, so it is a plain `Nat` starting at 0. -/
structure DomainStats where
  total_number_of_crawled_urls : Nat
  total_number_of_errors : Nat
  status_code_statistics : List (Nat × Nat)
  consecutive_429s : Nat
deriving DecidableEq, Repr

def fresh_domain_stats : DomainStats :=
  { total_number_of_crawled_urls := 0
    total_number_of_errors := 0
    status_code_statistics := []
    consecutive_429s := 0 }

/-- Global stats dict of `create_initial_stats` (`stats.py` 15-24), timing
fields omitted. -/
structure Stats where
  total_number_of_urls_crawled : Nat
  total_number_of_errors : Nat
  status_code_statistics : List (Nat × Nat)
  domain_statistics : List (String × DomainStats)
deriving DecidableEq, Repr

def initial_stats : Stats :=
  { total_number_of_urls_crawled := 0
    total_number_of_errors := 0
    status_code_statistics := []
    domain_statistics := [] }

/-! ### Association-list operations standing in for Python dicts -/

def alookup {β : Type} : List (String × β) → String → Option β
  | [], _ => none
  | (k', v) :: rest, k => if k' = k then some v else alookup rest k

/-- In-place update of the value at a key (Python `d[k] = f(d[k])`;
a no-op when the key is absent, which never happens at its call sites). -/
def aupdate {β : Type} : List (String × β) → String → (β → β) → List (String × β)
  | [], _, _ => []
  | (k', v) :: rest, k, f =>
      if k' = k then (k', f v) :: aupdate rest k f
      else (k', v) :: aupdate rest k f

/-- Python `hist[code] = hist.get(code, 0) + 1`. -/
def bump_histogram (h : List (Nat × Nat)) (code : Nat) : List (Nat × Nat) :=
  match h.lookup code with
  | some n => h.map (fun p => if p.1 = code then (p.1, n + 1) else p)
  | none => h ++ [(code, 1)]

/-! ### The fetch worker (`src/core/fetcher.py`) -/

/-- Outcome of `client.get(url, ...)` as observed by `fetch_url`: either a
transport-level failure (`asyncio.TimeoutError` / `aiohttp.ClientError`,
`fetcher.py` 118) or a response with a status, an optional `Retry-After`
header and a `Content-Type` header.  Retries happen inside `client.get`
(the `aiohttp_retry.RetryClient`), so `fetch_url` sees one final outcome. -/
inductive Response where
  | netError : Response
  | httpResp (status : Nat) (retry_after : Option Nat) (content_type : String) : Response
deriving DecidableEq, Repr

/-- Result of one `fetch_url` call.  `links`/`title`/`content_size` mirror the
returned tuple; `requested` records whether control reached `client.get`
(false only for the external-domain early return at `fetcher.py` 38);
`waited` is the argument of the `asyncio.sleep` in the 429 branch (0 on every
other path); `stats` is the mutated statistics dict. -/
structure FetchResult where
  links : List String
  title : String
  content_size : Nat
  requested : Bool
  waited : Nat
  stats : Stats
deriving DecidableEq, Repr

/-- Source `fetcher.py` 118-122 / 123-127 (and 113-116): increment the global and the
domain error counters. -/
def bump_errors (stats : Stats) (domain : String) : Stats :=
  { stats with
    total_number_of_errors := stats.total_number_of_errors + 1
    domain_statistics := aupdate stats.domain_statistics domain
      (fun d => { d with total_number_of_errors := d.total_number_of_errors + 1 }) }

/-- Source `fetcher.py` 58: `consecutive_429s = get(..., 0) + 1`. -/
def bump_consecutive_429s (stats : Stats) (domain : String) : Stats :=
  { stats with
    domain_statistics := aupdate stats.domain_statistics domain
      (fun d => { d with consecutive_429s := d.consecutive_429s + 1 }) }

/-- Source `fetcher.py` 64: `consecutive_429s = 0`. -/
def reset_consecutive_429s (stats : Stats) (domain : String) : Stats :=
  { stats with
    domain_statistics := aupdate stats.domain_statistics domain
      (fun d => { d with consecutive_429s := 0 }) }

/-- Source `fetcher.py` 78-85: bump the global and domain status-code histograms and
the domain crawled-URL count (timing updates omitted). -/
def record_status (stats : Stats) (domain : String) (status : Nat) : Stats :=
  { stats with
    status_code_statistics := bump_histogram stats.status_code_statistics status
    domain_statistics := aupdate stats.domain_statistics domain
      (fun d =>
        { d with
          status_code_statistics := bump_histogram d.status_code_statistics status
          total_number_of_crawled_urls := d.total_number_of_crawled_urls + 1 }) }

/-- Source `constants.py` ALLOWED_CONTENT_TYPES. -/
def ALLOWED_CONTENT_TYPES : List String :=
  ["text/html", "application/xhtml+xml", "application/xml", "text/xml"]

/-- Source `fetcher.py` 67-68: `any(allowed_type in content_type.lower() ...)`. -/
def content_type_allowed (content_type : String) : Bool :=
  ALLOWED_CONTENT_TYPES.any
    (fun t => str_contains_sub (String.mk (content_type.data.map Char.toLower)) t)

/-- Source `fetcher.py` 50-127: the body of the `async with semaphore, ...` block.
Parameters beyond the source's: `resp` is the observed transport outcome,
`content_size` the value of `len(content.encode('utf-8'))`, and `parse` the
outcome of the black-box BeautifulSoup extraction of `fetcher.py` 88-109
(`some (links, title)` when parsing succeeds, `none` when the parser raises —
in which case control lands in the `except Exception` handler at line 123). -/
def fetch_url_request (domain : String) (resp : Response) (content_size : Nat)
    (parse : Option (List String × String)) (stats : Stats) : FetchResult :=
  match resp with
  | .netError =>
      { links := [], title := "", content_size := 0, requested := true, waited := 0
        stats := bump_errors stats domain }
  | .httpResp status retry_after content_type =>
      if status = 429 then
        { links := [], title := "", content_size := 0, requested := true
          waited := retry_after.getD 30
          stats := bump_consecutive_429s stats domain }
      else
        let stats1 := reset_consecutive_429s stats domain
        if !(content_type_allowed content_type) then
          { links := [], title := "", content_size := 0, requested := true, waited := 0
            stats := stats1 }
        else
          let stats2 := record_status stats1 domain status
          if 200 ≤ status ∧ status < 300 then
            match parse with
            | some (links, title) =>
                { links := links, title := title, content_size := content_size
                  requested := true, waited := 0, stats := stats2 }
            | none =>
                { links := [], title := "", content_size := 0, requested := true
                  waited := 0, stats := bump_errors stats2 domain }
          else
            { links := [], title := "", content_size := content_size
              requested := true, waited := 0, stats := bump_errors stats2 domain }

/-- Source `fetcher.py` 13-127, `fetch_url`.  Lines 26-38: a not-yet-tracked domain
is first inserted into `domain_stats`, then the defensive base-domain
cross-check runs over the (already extended) dict; on failure the function
returns `([], "", 0)` without issuing a request.  Otherwise the request body
`fetch_url_request` runs. -/
def fetch_url (url : String) (resp : Response) (content_size : Nat)
    (parse : Option (List String × String)) (stats : Stats) : FetchResult :=
  let domain := netloc url
  match alookup stats.domain_statistics domain with
  | none =>
      let ds1 := stats.domain_statistics ++ [(domain, fresh_domain_stats)]
      let stats1 := { stats with domain_statistics := ds1 }
      if ds1.any (fun p => str_contains_sub p.1 (base_domain domain)) then
        fetch_url_request domain resp content_size parse stats1
      else
        { links := [], title := "", content_size := 0, requested := false, waited := 0
          stats := stats1 }
  | some _ => fetch_url_request domain resp content_size parse stats

/-- Source `crawler.py` 96-122, `process_completed_task`, for a task that returned
normally (our `fetch_url` never raises: every exception is handled inside it;
the `except` branch of `process_completed_task` is unreachable for such
tasks).  Increments the global crawled counter unconditionally, then enqueues
the unvisited links at `depth + 1` when `depth < max_depth`. -/
def process_completed_task (links : List String) (depth max_depth : Nat)
    (visited_urls : List String) (urls_to_visit : List (String × Nat))
    (stats : Stats) : List (String × Nat) × Stats :=
  let stats1 := { stats with
    total_number_of_urls_crawled := stats.total_number_of_urls_crawled + 1 }
  let queue1 :=
    if depth < max_depth then
      urls_to_visit ++
        (links.filter (fun l => !(visited_urls.contains l))).map (fun l => (l, depth + 1))
    else urls_to_visit
  (queue1, stats1)

/-! ## Retry policy (configured at `crawler.py` 149-155) -/

/-- Source `crawler.py` 154: the status set of the `ExponentialRetry` options. -/
def retry_statuses : List Nat := [500, 502, 503, 504]

/-- Source `crawler.py` 151: `start_timeout=1`. -/
def retry_start_timeout : Nat := 1

/-- Source `crawler.py` 152: `max_timeout=10`. -/
def retry_max_timeout : Nat := 10

/-- Source `crawler.py` 153: `factor=2`. -/
def retry_factor : Nat := 2

/-- Backoff (seconds) slept before retrying after attempt number `attempt`
(0-based), per the configured exponential policy: start 1s, double each
attempt, capped at 10s. -/
def backoff_timeout (attempt : Nat) : Nat :=
  min (retry_start_timeout * retry_factor ^ attempt) retry_max_timeout

/-- Modelled from the spec: the retry loop itself lives in the third-party
`aiohttp_retry.RetryClient` wrapped around `client.get`; only its
configuration (`crawler.py` 149-155, embedded above) is repository code.
Per the spec (§4.2), an attempt whose status is in the retryable set is
retried, up to `maxRetries` retries in total, after which the last response
is returned.  `transport k` is the status the transport returns to attempt
number `k` (0-based).  Returns `(final status, attempts made)`. -/
def retry_request (transport : Nat → Nat) : Nat → Nat → Nat × Nat
  | attempt, 0 => (transport attempt, attempt + 1)
  | attempt, retriesLeft + 1 =>
      if retry_statuses.contains (transport attempt) then
        retry_request transport (attempt + 1) retriesLeft
      else (transport attempt, attempt + 1)

/-- One retried request starting at attempt 0 with `maxRetries` retries
available. -/
def retry_result (transport : Nat → Nat) (maxRetries : Nat) : Nat × Nat :=
  retry_request transport 0 maxRetries

/-- The spec's scenario transport: 503 on the first three attempts, 200
afterwards. -/
def transport_503_then_200 (k : Nat) : Nat :=
  if k < 3 then 503 else 200

/-! ## Concurrency controller (`asyncio.Semaphore` usage of
`crawler.py` 165 and `fetcher.py` 40-50)

One `fetch_url` task walks through these control points:

* `ready`: the `asyncio.Task` exists, `fetch_url` has not reached line 47 yet.
* `waitGlobal`: the per-domain semaphore entry exists (created with value 2 at
  line 48 if absent), the task is blocked entering `async with semaphore`.
* `waitDomain`: the global token is held, the task is blocked entering
  `domain_semaphores[domain]`.
* `inRegion`: both tokens held, the request region of lines 51-127 runs.
* `sleeping`: the 429 branch's `await asyncio.sleep(wait_time)` (line 61),
  still holding both tokens.
* `relGlobal`: the `async with` block was exited, the domain token has been
  given back, the global one not yet.
* `done`: both tokens returned, the coroutine finished.
-/

inductive Phase where
  | ready
  | waitGlobal
  | waitDomain
  | inRegion
  | sleeping
  | relGlobal
  | done
deriving DecidableEq, Repr

/-- Phases during which the task holds a global-semaphore token. -/
def holdsGlobalB : Phase → Bool
  | .waitDomain | .inRegion | .sleeping | .relGlobal => true
  | _ => false

/-- Phases during which the task holds a token of its domain's semaphore;
these are exactly the phases inside the request-issuing region. -/
def holdsDomainB : Phase → Bool
  | .inRegion | .sleeping => true
  | _ => false

structure TaskState where
  dom : String
  phase : Phase
deriving DecidableEq, Repr

/-- Crawl-wide semaphore state: the value of the global
`asyncio.Semaphore(rate_limit)`, the lazily-populated
`domain_semaphores` dict, and the control point of every fetch task. -/
structure CrawlerSem where
  globalSem : Nat
  domainSems : List (String × Nat)
  tasks : List TaskState
deriving DecidableEq, Repr

/-- Number of tasks currently holding a global token. -/
def countGlobal (ts : List TaskState) : Nat :=
  ts.countP (fun t => holdsGlobalB t.phase)

/-- Number of tasks of domain `d` currently inside the request region. -/
def countDomain (d : String) (ts : List TaskState) : Nat :=
  ts.countP (fun t => t.dom == d && holdsDomainB t.phase)

/-- Number of tasks inside the request region, over all domains. -/
def countRegion (ts : List TaskState) : Nat :=
  ts.countP (fun t => holdsDomainB t.phase)

/-- Interleaving semantics of the crawl's semaphore discipline.  A step picks
one task (`l₁ ++ t :: l₂` decomposition) and advances it one control point,
or the orchestrator spawns a new task (`create_task_for_url`).  Semaphore
`acquire` only fires on a positive counter and decrements it; `release`
increments it; `domain_semaphores[domain] = asyncio.Semaphore(2)` runs only
when the key is absent (`fetcher.py` 47-48). -/
inductive CStep : CrawlerSem → CrawlerSem → Prop where
  | spawn (g : Nat) (D : List (String × Nat)) (ts : List TaskState) (d : String) :
      CStep ⟨g, D, ts⟩ ⟨g, D, ts ++ [⟨d, .ready⟩]⟩
  | ensureNew (g : Nat) (D : List (String × Nat)) (l₁ l₂ : List TaskState) (d : String)
      (h : alookup D d = none) :
      CStep ⟨g, D, l₁ ++ ⟨d, .ready⟩ :: l₂⟩
            ⟨g, (d, 2) :: D, l₁ ++ ⟨d, .waitGlobal⟩ :: l₂⟩
  | ensureOld (g : Nat) (D : List (String × Nat)) (l₁ l₂ : List TaskState) (d : String)
      (v : Nat) (h : alookup D d = some v) :
      CStep ⟨g, D, l₁ ++ ⟨d, .ready⟩ :: l₂⟩
            ⟨g, D, l₁ ++ ⟨d, .waitGlobal⟩ :: l₂⟩
  | acqGlobal (g : Nat) (D : List (String × Nat)) (l₁ l₂ : List TaskState) (d : String) :
      CStep ⟨g + 1, D, l₁ ++ ⟨d, .waitGlobal⟩ :: l₂⟩
            ⟨g, D, l₁ ++ ⟨d, .waitDomain⟩ :: l₂⟩
  | acqDomain (g : Nat) (D : List (String × Nat)) (l₁ l₂ : List TaskState) (d : String)
      (v : Nat) (h : alookup D d = some (v + 1)) :
      CStep ⟨g, D, l₁ ++ ⟨d, .waitDomain⟩ :: l₂⟩
            ⟨g, aupdate D d (fun _ => v), l₁ ++ ⟨d, .inRegion⟩ :: l₂⟩
  | recv429 (g : Nat) (D : List (String × Nat)) (l₁ l₂ : List TaskState) (d : String) :
      CStep ⟨g, D, l₁ ++ ⟨d, .inRegion⟩ :: l₂⟩
            ⟨g, D, l₁ ++ ⟨d, .sleeping⟩ :: l₂⟩
  | wake (g : Nat) (D : List (String × Nat)) (l₁ l₂ : List TaskState) (d : String) :
      CStep ⟨g, D, l₁ ++ ⟨d, .sleeping⟩ :: l₂⟩
            ⟨g, D, l₁ ++ ⟨d, .inRegion⟩ :: l₂⟩
  | relDomain (g : Nat) (D : List (String × Nat)) (l₁ l₂ : List TaskState) (d : String)
      (v : Nat) (h : alookup D d = some v) :
      CStep ⟨g, D, l₁ ++ ⟨d, .inRegion⟩ :: l₂⟩
            ⟨g, aupdate D d (fun _ => v + 1), l₁ ++ ⟨d, .relGlobal⟩ :: l₂⟩
  | relGlobal (g : Nat) (D : List (String × Nat)) (l₁ l₂ : List TaskState) (d : String) :
      CStep ⟨g, D, l₁ ++ ⟨d, .relGlobal⟩ :: l₂⟩
            ⟨g + 1, D, l₁ ++ ⟨d, .done⟩ :: l₂⟩

/-- States reachable in a run whose `rate_limit` (the spec's
`concurrencyLimit`) is `L`: the global semaphore starts at `L`
(`crawler.py` 165), no domain semaphores exist, no tasks exist. -/
inductive Reachable (L : Nat) : CrawlerSem → Prop where
  | init : Reachable L ⟨L, [], []⟩
  | step {s s' : CrawlerSem} : Reachable L s → CStep s s' → Reachable L s'

/-- Source `constants.py`: `MAX_CONCURRENT_PER_DOMAIN = 2`. -/
def MAX_CONCURRENT_PER_DOMAIN : Nat := 2

/-- Source `crawler.py` 223-230, the `finally` block: every semaphore in
`domain_semaphores` is released `MAX_CONCURRENT_PER_DOMAIN` times.
`asyncio.Semaphore.release` increments the counter unconditionally and never
raises `ValueError` (only `threading.BoundedSemaphore` does), so the
`except ValueError: pass` guard is dead and each release adds 1. -/
def cleanup_domain_semaphores (domainSems : List (String × Nat)) :
    List (String × Nat) :=
  domainSems.map (fun p => (p.1, p.2 + MAX_CONCURRENT_PER_DOMAIN))

/-! ### Semaphore invariant -/

/-- The crawl-wide token-accounting invariant: global tokens out plus counter
equals `L`; for every existing domain semaphore, tokens out plus counter
equals 2; a domain with no semaphore yet has no region occupants. -/
def SemInv (L : Nat) (s : CrawlerSem) : Prop :=
  s.globalSem + countGlobal s.tasks = L ∧
  (∀ d v, alookup s.domainSems d = some v → v + countDomain d s.tasks = 2) ∧
  (∀ d, alookup s.domainSems d = none → countDomain d s.tasks = 0)

/-! ### Rate-limit cool-down behaviour (claim C4) -/

/-- Formalisation of "further dispatch to the domain is suspended for the
cool-down": while some task of a domain sleeps in the 429 branch, no other
task of that domain is inside the request-issuing region. -/
def NoRequestDuringCooldown (s : CrawlerSem) : Prop :=
  ∀ t1 ∈ s.tasks, ∀ t2 ∈ s.tasks,
    t1.phase = Phase.sleeping → t2.dom = t1.dom → t2.phase ≠ Phase.inRegion

/-! ### Error accounting of the fetch worker (claims C5, C6, C9) -/

/-- The domain's error counter as observed from outside (0 when the domain is
not tracked yet, matching the fresh dict the source would create). -/
def dom_errors (stats : Stats) (d : String) : Nat :=
  ((alookup stats.domain_statistics d).getD fresh_domain_stats).total_number_of_errors

/-! ### Facts about the string utilities -/

theorem splitOnDot_ne_nil (cs : List Char) : splitOnDot cs ≠ [] := by
  match cs with
  | [] => simp [splitOnDot]
  | c :: cs' =>
      simp only [splitOnDot]
      split
      · simp
      · split <;> simp

theorem joinDot_splitOnDot (cs : List Char) : joinDot (splitOnDot cs) = cs := by
  induction cs with
  | nil => rfl
  | cons c cs' ih =>
      simp only [splitOnDot]
      split
      · rename_i hc
        subst hc
        have h := splitOnDot_ne_nil cs'
        match hsp : splitOnDot cs' with
        | [] => exact absurd hsp h
        | g :: gs =>
            rw [hsp] at ih
            simp only [joinDot]
            match gs with
            | [] => simpa [joinDot] using ih
            | _ :: _ => simpa [joinDot] using ih
      · match hsp : splitOnDot cs' with
        | [] => exact absurd hsp (splitOnDot_ne_nil cs')
        | g :: gs =>
            rw [hsp] at ih
            match gs with
            | [] => simpa [joinDot] using ih
            | g' :: gs' =>
                simp only [joinDot] at ih ⊢
                simp [ih]

theorem joinDot_drop_isSuffix (l : List (List Char)) (k : Nat) :
    joinDot (l.drop k) <:+ joinDot l := by
  induction k generalizing l with
  | zero => simp
  | succ k ih =>
      match l with
      | [] => simp
      | g :: gs =>
          have h1 : joinDot ((g :: gs).drop (k + 1)) <:+ joinDot gs := by
            simpa using ih gs
          apply h1.trans
          match gs with
          | [] => simp [joinDot]
          | g' :: gs' =>
              show joinDot (g' :: gs') <:+ joinDot (g :: g' :: gs')
              simp only [joinDot]
              exact ⟨g ++ ['.'], by simp⟩

/-- The naive base domain is always a suffix (hence a substring) of the host
it was computed from; this is what makes the defensive cross-check in
`fetch_url` unable to ever fail (see claim C6). -/
theorem base_domain_isSuffix (domain : String) :
    (base_domain domain).data <:+ domain.data := by
  have h := joinDot_drop_isSuffix (splitOnDot domain.data)
    ((splitOnDot domain.data).length - 2)
  rw [joinDot_splitOnDot] at h
  simpa [base_domain] using h

theorem str_contains_sub_self_base (domain : String) :
    str_contains_sub domain (base_domain domain) = true := by
  have h := base_domain_isSuffix domain
  have hinf : (base_domain domain).data <:+: domain.data := by
    obtain ⟨pre, hpre⟩ := h
    exact ⟨pre, [], by simpa using hpre⟩
  simpa [str_contains_sub] using hinf

/-! ### Dict lemmas -/

theorem alookup_aupdate_self {β : Type} (m : List (String × β)) (k : String)
    (f : β → β) : alookup (aupdate m k f) k = (alookup m k).map f := by
  induction m with
  | nil => rfl
  | cons p rest ih =>
      obtain ⟨k', v⟩ := p
      by_cases h : k' = k
      · simp [aupdate, alookup, h]
      · simp [aupdate, alookup, h, ih]

theorem alookup_aupdate_ne {β : Type} (m : List (String × β)) (k k' : String)
    (f : β → β) (h : k' ≠ k) :
    alookup (aupdate m k f) k' = alookup m k' := by
  induction m with
  | nil => rfl
  | cons p rest ih =>
      obtain ⟨k₀, v⟩ := p
      by_cases h0 : k₀ = k
      · subst h0
        simp [aupdate, alookup, Ne.symm h, ih]
      · by_cases h1 : k₀ = k'
        · subst h1
          simp [aupdate, alookup, h, h0, ih]
        · simp [aupdate, alookup, h0, h1, ih]

theorem alookup_append_right {β : Type} (m : List (String × β)) (k : String)
    (v : β) (h : alookup m k = none) :
    alookup (m ++ [(k, v)]) k = some v := by
  induction m with
  | nil => simp [alookup]
  | cons p rest ih =>
      obtain ⟨k₀, w⟩ := p
      by_cases h0 : k₀ = k
      · simp [alookup, h0] at h
      · simp only [alookup, if_neg h0] at h
        simpa [alookup, if_neg h0] using ih h

theorem countGlobal_append (l₁ l₂ : List TaskState) :
    countGlobal (l₁ ++ l₂) = countGlobal l₁ + countGlobal l₂ :=
  List.countP_append _ _ _

theorem countGlobal_cons (t : TaskState) (l : List TaskState) :
    countGlobal (t :: l) = countGlobal l + if holdsGlobalB t.phase then 1 else 0 :=
  List.countP_cons _ _ _

theorem countDomain_append (d : String) (l₁ l₂ : List TaskState) :
    countDomain d (l₁ ++ l₂) = countDomain d l₁ + countDomain d l₂ :=
  List.countP_append _ _ _

theorem countDomain_cons (d : String) (t : TaskState) (l : List TaskState) :
    countDomain d (t :: l) =
      countDomain d l + if t.dom == d && holdsDomainB t.phase then 1 else 0 :=
  List.countP_cons _ _ _

theorem SemInv_init (L : Nat) : SemInv L ⟨L, [], []⟩ := by
  refine ⟨by simp [countGlobal], ?_, ?_⟩
  · intro d v h
    simp [alookup] at h
  · intro d _
    simp [countDomain]

theorem SemInv_step {L : Nat} {s s' : CrawlerSem} (hinv : SemInv L s)
    (hstep : CStep s s') : SemInv L s' := by
  obtain ⟨h1, h2, h3⟩ := hinv
  cases hstep with
  | spawn g D ts d =>
      refine ⟨?_, ?_, ?_⟩
      · show g + countGlobal (ts ++ [⟨d, Phase.ready⟩]) = L
        have h1' : g + countGlobal ts = L := h1
        rw [countGlobal_append]
        have h0 : countGlobal [⟨d, Phase.ready⟩] = 0 := by
          simp [countGlobal, holdsGlobalB]
        omega
      · intro d' v' hlk
        have hthis : v' + countDomain d' ts = 2 := h2 d' v' hlk
        show v' + countDomain d' (ts ++ [⟨d, Phase.ready⟩]) = 2
        rw [countDomain_append]
        have h0 : countDomain d' [⟨d, Phase.ready⟩] = 0 := by
          simp [countDomain, List.countP_cons, holdsDomainB]
        omega
      · intro d' hlk
        have hthis : countDomain d' ts = 0 := h3 d' hlk
        show countDomain d' (ts ++ [⟨d, Phase.ready⟩]) = 0
        rw [countDomain_append]
        have h0 : countDomain d' [⟨d, Phase.ready⟩] = 0 := by
          simp [countDomain, List.countP_cons, holdsDomainB]
        omega
  | ensureNew g D l₁ l₂ d h =>
      refine ⟨?_, ?_, ?_⟩
      · simp only [countGlobal_append, countGlobal_cons] at h1 ⊢
        simp [holdsGlobalB] at h1 ⊢
        omega
      · intro d' v' hlk
        by_cases hdd : d = d'
        · subst hdd
          simp only [alookup, if_pos rfl] at hlk
          obtain rfl : (2 : Nat) = v' := by simpa using hlk
          have h0 := h3 d h
          simp only [countDomain_append, countDomain_cons] at h0 ⊢
          simp [holdsDomainB] at h0 ⊢
          omega
        · simp only [alookup, if_neg hdd] at hlk
          have := h2 d' v' hlk
          simp only [countDomain_append, countDomain_cons] at this ⊢
          simp [holdsDomainB] at this ⊢
          omega
      · intro d' hlk
        by_cases hdd : d = d'
        · subst hdd
          simp [alookup] at hlk
        · simp only [alookup, if_neg hdd] at hlk
          have := h3 d' hlk
          simp only [countDomain_append, countDomain_cons] at this ⊢
          simp [holdsDomainB] at this ⊢
          omega
  | ensureOld g D l₁ l₂ d v h =>
      refine ⟨?_, ?_, ?_⟩
      · simp only [countGlobal_append, countGlobal_cons] at h1 ⊢
        simp [holdsGlobalB] at h1 ⊢
        omega
      · intro d' v' hlk
        have := h2 d' v' hlk
        simp only [countDomain_append, countDomain_cons] at this ⊢
        simp [holdsDomainB] at this ⊢
        omega
      · intro d' hlk
        have := h3 d' hlk
        simp only [countDomain_append, countDomain_cons] at this ⊢
        simp [holdsDomainB] at this ⊢
        omega
  | acqGlobal g D l₁ l₂ d =>
      refine ⟨?_, ?_, ?_⟩
      · simp only [countGlobal_append, countGlobal_cons] at h1 ⊢
        simp [holdsGlobalB] at h1 ⊢
        omega
      · intro d' v' hlk
        have := h2 d' v' hlk
        simp only [countDomain_append, countDomain_cons] at this ⊢
        simp [holdsDomainB] at this ⊢
        omega
      · intro d' hlk
        have := h3 d' hlk
        simp only [countDomain_append, countDomain_cons] at this ⊢
        simp [holdsDomainB] at this ⊢
        omega
  | acqDomain g D l₁ l₂ d v h =>
      refine ⟨?_, ?_, ?_⟩
      · simp only [countGlobal_append, countGlobal_cons] at h1 ⊢
        simp [holdsGlobalB] at h1 ⊢
        omega
      · intro d' v' hlk
        by_cases hdd : d' = d
        · subst hdd
          rw [alookup_aupdate_self, h] at hlk
          obtain rfl : v = v' := by simpa using hlk
          have := h2 d' (v + 1) h
          simp only [countDomain_append, countDomain_cons] at this ⊢
          simp [holdsDomainB] at this ⊢
          omega
        · rw [alookup_aupdate_ne _ _ _ _ hdd] at hlk
          have := h2 d' v' hlk
          have hbeq : (d == d') = false := by
            simp only [beq_eq_false_iff_ne]
            exact fun hc => hdd hc.symm
          simp only [countDomain_append, countDomain_cons] at this ⊢
          simp [holdsDomainB, hbeq] at this ⊢
          omega
      · intro d' hlk
        by_cases hdd : d' = d
        · subst hdd
          rw [alookup_aupdate_self, h] at hlk
          simp at hlk
        · rw [alookup_aupdate_ne _ _ _ _ hdd] at hlk
          have := h3 d' hlk
          have hbeq : (d == d') = false := by
            simp only [beq_eq_false_iff_ne]
            exact fun hc => hdd hc.symm
          simp only [countDomain_append, countDomain_cons] at this ⊢
          simp [holdsDomainB, hbeq] at this ⊢
          omega
  | recv429 g D l₁ l₂ d =>
      refine ⟨?_, ?_, ?_⟩
      · show g + countGlobal (l₁ ++ ⟨d, Phase.sleeping⟩ :: l₂) = L
        have h1' : g + countGlobal (l₁ ++ ⟨d, Phase.inRegion⟩ :: l₂) = L := h1
        simp only [countGlobal_append, countGlobal_cons] at h1' ⊢
        simp [holdsGlobalB] at h1' ⊢
        omega
      · intro d' v' hlk
        have hthis : v' + countDomain d' (l₁ ++ ⟨d, Phase.inRegion⟩ :: l₂) = 2 :=
          h2 d' v' hlk
        show v' + countDomain d' (l₁ ++ ⟨d, Phase.sleeping⟩ :: l₂) = 2
        simp only [countDomain_append, countDomain_cons] at hthis ⊢
        simp [holdsDomainB] at hthis ⊢
        omega
      · intro d' hlk
        have hthis : countDomain d' (l₁ ++ ⟨d, Phase.inRegion⟩ :: l₂) = 0 := h3 d' hlk
        show countDomain d' (l₁ ++ ⟨d, Phase.sleeping⟩ :: l₂) = 0
        have he : countDomain d' (l₁ ++ ⟨d, Phase.sleeping⟩ :: l₂)
            = countDomain d' (l₁ ++ ⟨d, Phase.inRegion⟩ :: l₂) := by
          simp [countDomain_append, countDomain_cons, holdsDomainB]
        rw [he]
        exact hthis
  | wake g D l₁ l₂ d =>
      refine ⟨?_, ?_, ?_⟩
      · show g + countGlobal (l₁ ++ ⟨d, Phase.inRegion⟩ :: l₂) = L
        have h1' : g + countGlobal (l₁ ++ ⟨d, Phase.sleeping⟩ :: l₂) = L := h1
        simp only [countGlobal_append, countGlobal_cons] at h1' ⊢
        simp [holdsGlobalB] at h1' ⊢
        omega
      · intro d' v' hlk
        have hthis : v' + countDomain d' (l₁ ++ ⟨d, Phase.sleeping⟩ :: l₂) = 2 :=
          h2 d' v' hlk
        show v' + countDomain d' (l₁ ++ ⟨d, Phase.inRegion⟩ :: l₂) = 2
        simp only [countDomain_append, countDomain_cons] at hthis ⊢
        simp [holdsDomainB] at hthis ⊢
        omega
      · intro d' hlk
        have hthis : countDomain d' (l₁ ++ ⟨d, Phase.sleeping⟩ :: l₂) = 0 := h3 d' hlk
        show countDomain d' (l₁ ++ ⟨d, Phase.inRegion⟩ :: l₂) = 0
        have he : countDomain d' (l₁ ++ ⟨d, Phase.inRegion⟩ :: l₂)
            = countDomain d' (l₁ ++ ⟨d, Phase.sleeping⟩ :: l₂) := by
          simp [countDomain_append, countDomain_cons, holdsDomainB]
        rw [he]
        exact hthis
  | relDomain g D l₁ l₂ d v h =>
      refine ⟨?_, ?_, ?_⟩
      · simp only [countGlobal_append, countGlobal_cons] at h1 ⊢
        simp [holdsGlobalB] at h1 ⊢
        omega
      · intro d' v' hlk
        by_cases hdd : d' = d
        · subst hdd
          rw [alookup_aupdate_self, h] at hlk
          obtain rfl : v + 1 = v' := by simpa using hlk
          have := h2 d' v h
          simp only [countDomain_append, countDomain_cons] at this ⊢
          simp [holdsDomainB] at this ⊢
          omega
        · rw [alookup_aupdate_ne _ _ _ _ hdd] at hlk
          have := h2 d' v' hlk
          have hbeq : (d == d') = false := by
            simp only [beq_eq_false_iff_ne]
            exact fun hc => hdd hc.symm
          simp only [countDomain_append, countDomain_cons] at this ⊢
          simp [holdsDomainB, hbeq] at this ⊢
          omega
      · intro d' hlk
        by_cases hdd : d' = d
        · subst hdd
          rw [alookup_aupdate_self, h] at hlk
          simp at hlk
        · rw [alookup_aupdate_ne _ _ _ _ hdd] at hlk
          have := h3 d' hlk
          have hbeq : (d == d') = false := by
            simp only [beq_eq_false_iff_ne]
            exact fun hc => hdd hc.symm
          simp only [countDomain_append, countDomain_cons] at this ⊢
          simp [holdsDomainB, hbeq] at this ⊢
          omega
  | relGlobal g D l₁ l₂ d =>
      refine ⟨?_, ?_, ?_⟩
      · simp only [countGlobal_append, countGlobal_cons] at h1 ⊢
        simp [holdsGlobalB] at h1 ⊢
        omega
      · intro d' v' hlk
        have := h2 d' v' hlk
        simp only [countDomain_append, countDomain_cons] at this ⊢
        simp [holdsDomainB] at this ⊢
        omega
      · intro d' hlk
        have := h3 d' hlk
        simp only [countDomain_append, countDomain_cons] at this ⊢
        simp [holdsDomainB] at this ⊢
        omega

theorem SemInv_reachable {L : Nat} {s : CrawlerSem} (h : Reachable L s) :
    SemInv L s := by
  induction h with
  | init => exact SemInv_init L
  | step _ hstep ih => exact SemInv_step ih hstep

/-! ### Consequences of the invariant -/

theorem countRegion_le_countGlobal (ts : List TaskState) :
    countRegion ts ≤ countGlobal ts := by
  apply List.countP_mono_left
  intro t _ hp
  cases hph : t.phase <;> simp [holdsDomainB, hph] at hp ⊢ <;>
    simp [holdsGlobalB]

/-- The only step that adds a key to `domain_semaphores` is the lazy creation
at `fetcher.py` 47-48, which installs the value 2 for the domain of a task
that is about to enter the semaphore region. -/
theorem domain_sem_created_with_two {s s' : CrawlerSem} (hstep : CStep s s')
    (d : String) (hnone : alookup s.domainSems d = none)
    (hsome : alookup s'.domainSems d ≠ none) :
    alookup s'.domainSems d = some 2 ∧
      ∃ t ∈ s.tasks, t.dom = d ∧ t.phase = Phase.ready := by
  cases hstep with
  | spawn g D ts d₀ =>
      exact absurd hnone hsome
  | ensureNew g D l₁ l₂ d₀ h =>
      have hnone' : alookup D d = none := hnone
      by_cases hdd : d₀ = d
      · subst hdd
        refine ⟨by simp [alookup], ⟨⟨d₀, Phase.ready⟩, ?_, rfl, rfl⟩⟩
        simp
      · have : alookup ((d₀, 2) :: D) d = none := by
          simp [alookup, hdd, hnone']
        exact absurd this hsome
  | ensureOld g D l₁ l₂ d₀ v h =>
      exact absurd hnone hsome
  | acqGlobal g D l₁ l₂ d₀ =>
      exact absurd hnone hsome
  | acqDomain g D l₁ l₂ d₀ v h =>
      have hnone' : alookup D d = none := hnone
      have hdd : d ≠ d₀ := by
        intro hc
        rw [hc, h] at hnone'
        cases hnone'
      have : alookup (aupdate D d₀ (fun _ => v)) d = none := by
        rw [alookup_aupdate_ne _ _ _ _ hdd]
        exact hnone'
      exact absurd this hsome
  | recv429 g D l₁ l₂ d₀ =>
      exact absurd hnone hsome
  | wake g D l₁ l₂ d₀ =>
      exact absurd hnone hsome
  | relDomain g D l₁ l₂ d₀ v h =>
      have hnone' : alookup D d = none := hnone
      have hdd : d ≠ d₀ := by
        intro hc
        rw [hc, h] at hnone'
        cases hnone'
      have : alookup (aupdate D d₀ (fun _ => v + 1)) d = none := by
        rw [alookup_aupdate_ne _ _ _ _ hdd]
        exact hnone'
      exact absurd this hsome
  | relGlobal g D l₁ l₂ d₀ =>
      exact absurd hnone hsome

/-- C2: At every moment of a run, the number of fetches concurrently inside
the request-issuing region is at most `concurrencyLimit` (= `rate_limit`, the
initial value `L` of the global semaphore) globally, and at most 2 for any
single host; and the per-host slot state is created lazily — the only
transition that installs a semaphore for a host does so with initial value 2,
on behalf of a task for that very host that is about to need it. -/
theorem C2_concurrency_limits (L : Nat) (s : CrawlerSem) (h : Reachable L s) :
    countRegion s.tasks ≤ L ∧
    (∀ d : String, countDomain d s.tasks ≤ 2) ∧
    (∀ s' : CrawlerSem, CStep s s' → ∀ d : String,
        alookup s.domainSems d = none → alookup s'.domainSems d ≠ none →
        alookup s'.domainSems d = some 2 ∧
          ∃ t ∈ s.tasks, t.dom = d ∧ t.phase = Phase.ready) := by
  obtain ⟨h1, h2, h3⟩ := SemInv_reachable h
  refine ⟨?_, ?_, ?_⟩
  · have hle := countRegion_le_countGlobal s.tasks
    omega
  · intro d
    cases hlk : alookup s.domainSems d with
    | none =>
        have := h3 d hlk
        omega
    | some v =>
        have := h2 d v hlk
        omega
  · intro s' hstep d hnone hsome
    exact domain_sem_created_with_two hstep d hnone hsome

/-- Witness for C2 at a concrete reachable state: one task for host `a.test`
inside the region under `rate_limit = 2`. -/
theorem C2_concurrency_limits_witness :
    countRegion ([⟨"a.test", Phase.inRegion⟩] : List TaskState) ≤ 2 ∧
    (∀ d : String, countDomain d ([⟨"a.test", Phase.inRegion⟩] : List TaskState) ≤ 2) ∧
    (∀ s' : CrawlerSem,
        CStep ⟨1, [("a.test", 1)], [⟨"a.test", Phase.inRegion⟩]⟩ s' → ∀ d : String,
        alookup [("a.test", 1)] d = none → alookup s'.domainSems d ≠ none →
        alookup s'.domainSems d = some 2 ∧
          ∃ t ∈ ([⟨"a.test", Phase.inRegion⟩] : List TaskState),
            t.dom = d ∧ t.phase = Phase.ready) :=
  C2_concurrency_limits 2 ⟨1, [("a.test", 1)], [⟨"a.test", Phase.inRegion⟩]⟩
    (Reachable.step
      (Reachable.step
        (Reachable.step
          (Reachable.step Reachable.init (CStep.spawn 2 [] [] "a.test"))
          (CStep.ensureNew 2 [] [] [] "a.test" rfl))
        (CStep.acqGlobal 1 [("a.test", 2)] [] [] "a.test"))
      (CStep.acqDomain 1 [("a.test", 2)] [] [] "a.test" 1 rfl))

/-- With `rate_limit = 10`, a state where one `a.test` task sleeps in the 429
branch while a second `a.test` task is inside the request region is
reachable: the sleeping task holds only one of the domain's two slots, so the
second fetch sails through the other one. -/
theorem sleeping_while_other_in_region :
    Reachable 10 ⟨8, [("a.test", 0)],
      [⟨"a.test", Phase.sleeping⟩, ⟨"a.test", Phase.inRegion⟩]⟩ :=
  Reachable.step
    (Reachable.step
      (Reachable.step
        (Reachable.step
          (Reachable.step
            (Reachable.step
              (Reachable.step
                (Reachable.step
                  (Reachable.step Reachable.init
                    (CStep.spawn 10 [] [] "a.test"))
                  (CStep.spawn 10 [] [⟨"a.test", Phase.ready⟩] "a.test"))
                (CStep.ensureNew 10 [] [] [⟨"a.test", Phase.ready⟩] "a.test" rfl))
              (CStep.acqGlobal 9 [("a.test", 2)] [] [⟨"a.test", Phase.ready⟩] "a.test"))
            (CStep.acqDomain 9 [("a.test", 2)] [] [⟨"a.test", Phase.ready⟩] "a.test" 1 rfl))
          (CStep.recv429 9 [("a.test", 1)] [] [⟨"a.test", Phase.ready⟩] "a.test"))
        (CStep.ensureOld 9 [("a.test", 1)] [⟨"a.test", Phase.sleeping⟩] [] "a.test" 1 rfl))
      (CStep.acqGlobal 8 [("a.test", 1)] [⟨"a.test", Phase.sleeping⟩] [] "a.test"))
    (CStep.acqDomain 8 [("a.test", 1)] [⟨"a.test", Phase.sleeping⟩] [] "a.test" 0 rfl)

/-- C4 counterexample: the claim's "further dispatch to that domain is
suspended for the duration of the hint" is false — a reachable state has an
`a.test` task sleeping in the 429 branch while another `a.test` fetch is
inside the request-issuing region at the same time. -/
theorem C4_counterexample :
    Reachable 10 ⟨8, [("a.test", 0)],
      [⟨"a.test", Phase.sleeping⟩, ⟨"a.test", Phase.inRegion⟩]⟩ ∧
    ¬ NoRequestDuringCooldown ⟨8, [("a.test", 0)],
      [⟨"a.test", Phase.sleeping⟩, ⟨"a.test", Phase.inRegion⟩]⟩ := by
  refine ⟨sleeping_while_other_in_region, ?_⟩
  intro hsusp
  have := hsusp ⟨"a.test", Phase.sleeping⟩ (by simp)
    ⟨"a.test", Phase.inRegion⟩ (by simp) rfl rfl
  exact this rfl

/-- C4 as amended: a 429 response is not a retryable status; the fetch
increments the domain's consecutive-429 counter, sleeps for the
`Retry-After` hint (30 when the header is absent) while still holding its
global and per-domain tokens, and returns a skipped, no-content result that
leaves every error counter (and every histogram) untouched.  Other fetches
to the same domain are not suspended (see `C4_counterexample`); the
sleeping task merely occupies one of the domain's two slots. -/
theorem C4_rate_limit_handling (url content_type : String) (ra : Option Nat)
    (content_size : Nat) (parse : Option (List String × String)) (stats : Stats) :
    (retry_statuses.contains 429 = false) ∧
    (holdsGlobalB Phase.sleeping = true ∧ holdsDomainB Phase.sleeping = true) ∧
    ((fetch_url_request (netloc url) (.httpResp 429 ra content_type)
        content_size parse stats).waited = ra.getD 30) ∧
    ((fetch_url_request (netloc url) (.httpResp 429 ra content_type)
        content_size parse stats).links = []) ∧
    ((fetch_url_request (netloc url) (.httpResp 429 ra content_type)
        content_size parse stats).title = "") ∧
    ((fetch_url_request (netloc url) (.httpResp 429 ra content_type)
        content_size parse stats).content_size = 0) ∧
    ((fetch_url_request (netloc url) (.httpResp 429 ra content_type)
        content_size parse stats).stats =
      bump_consecutive_429s stats (netloc url)) ∧
    (∀ s : Stats, ∀ d : String,
      (bump_consecutive_429s s d).total_number_of_errors = s.total_number_of_errors ∧
      (bump_consecutive_429s s d).total_number_of_urls_crawled =
        s.total_number_of_urls_crawled ∧
      (bump_consecutive_429s s d).status_code_statistics = s.status_code_statistics) ∧
    (∀ v : DomainStats, alookup stats.domain_statistics (netloc url) = some v →
      fetch_url url (.httpResp 429 ra content_type) content_size parse stats =
        fetch_url_request (netloc url) (.httpResp 429 ra content_type)
          content_size parse stats) ∧
    (∀ s : Stats, ∀ d : String, ∀ v : DomainStats,
      alookup s.domain_statistics d = some v →
      alookup (bump_consecutive_429s s d).domain_statistics d =
        some { v with consecutive_429s := v.consecutive_429s + 1 }) := by
  refine ⟨rfl, ⟨rfl, rfl⟩, ?_, ?_, ?_, ?_, ?_, ?_, ?_, ?_⟩
  · simp [fetch_url_request]
  · simp [fetch_url_request]
  · simp [fetch_url_request]
  · simp [fetch_url_request]
  · simp [fetch_url_request]
  · intro s d
    refine ⟨rfl, rfl, rfl⟩
  · intro v hv
    simp [fetch_url, hv]
  · intro s d v hv
    simp [bump_consecutive_429s, alookup_aupdate_self, hv]

/-- Witness for C4 at a concrete input: a 429 with a 5-second `Retry-After`
hint makes the fetch sleep 5 seconds. -/
theorem C4_rate_limit_handling_witness :
    (fetch_url_request (netloc "http://a.test/r") (.httpResp 429 (some 5) "text/html")
        3 (some ([], "")) initial_stats).waited = (some 5).getD 30 :=
  (C4_rate_limit_handling "http://a.test/r" "text/html" (some 5) 3
    (some ([], "")) initial_stats).2.2.1

/-- C7: code evaluation at the failing input.  A run with `rate_limit = 10`
that crawls a single `a.test` URL to completion ends with every token
returned (global semaphore 10, domain semaphore 2) — and then the `finally`
block of `crawl` releases the domain semaphore twice more, leaving its
capacity at 4, not its initial value 2.  `asyncio.Semaphore.release` never
raises `ValueError`, so the `except ValueError: pass` guard stops nothing. -/
theorem C7_code_evaluation :
    Reachable 10 ⟨10, [("a.test", 2)], [⟨"a.test", Phase.done⟩]⟩ ∧
    alookup (cleanup_domain_semaphores [("a.test", 2)]) "a.test" = some 4 ∧
    (4 : Nat) ≠ MAX_CONCURRENT_PER_DOMAIN := by
  refine ⟨?_, by decide, by decide⟩
  exact
    Reachable.step
      (Reachable.step
        (Reachable.step
          (Reachable.step
            (Reachable.step
              (Reachable.step Reachable.init (CStep.spawn 10 [] [] "a.test"))
              (CStep.ensureNew 10 [] [] [] "a.test" rfl))
            (CStep.acqGlobal 9 [("a.test", 2)] [] [] "a.test"))
          (CStep.acqDomain 9 [("a.test", 2)] [] [] "a.test" 1 rfl))
        (CStep.relDomain 9 [("a.test", 1)] [] [] "a.test" 1 rfl))
      (CStep.relGlobal 9 [("a.test", 2)] [] [] "a.test")

/-! ### Dispatch soundness of the queue loop -/

/-- Everything `process_url_queue` turns into a task either was in the
accumulator already or passed `should_crawl_url` against the visited set
current at its dequeue time. -/
theorem mem_tasks_process_url_queue (queue : List (String × Nat))
    (visited_urls : List String) (max_depth : Nat)
    (allowed_domains blacklist : List String) (rate_limit : Nat)
    (acc : List (String × Nat)) (u : String) (dep : Nat)
    (h : (u, dep) ∈ (process_url_queue queue visited_urls max_depth
        allowed_domains blacklist rate_limit acc).1) :
    (u, dep) ∈ acc ∨
      ∃ vis : List String,
        should_crawl_url u dep max_depth vis allowed_domains blacklist = true := by
  induction queue generalizing visited_urls acc with
  | nil =>
      left
      simpa [process_url_queue] using h
  | cons p rest ih =>
      obtain ⟨url, depth⟩ := p
      rw [process_url_queue] at h
      by_cases hlen : acc.length < rate_limit
      · rw [if_pos hlen] at h
        by_cases hok : should_crawl_url url depth max_depth visited_urls
            allowed_domains blacklist = true
        · rw [if_pos hok] at h
          rcases ih _ _ h with hacc | hex
          · rcases List.mem_append.mp hacc with hacc' | hone
            · exact Or.inl hacc'
            · right
              obtain ⟨rfl, rfl⟩ : u = url ∧ dep = depth := by
                simpa using hone
              exact ⟨visited_urls, hok⟩
          · exact Or.inr hex
        · rw [if_neg hok] at h
          exact ih _ _ h
      · rw [if_neg hlen] at h
        exact Or.inl h

/-- Unpacking a successful admission check: the conditions that
`should_crawl_url` must have found false. -/
theorem should_crawl_url_true_elim (url : String) (depth max_depth : Nat)
    (visited_urls allowed_domains blacklist : List String)
    (h : should_crawl_url url depth max_depth visited_urls allowed_domains
        blacklist = true) :
    visited_urls.contains (urldefrag url) = false ∧
    depth ≤ max_depth ∧
    visited_urls.contains url = false ∧
    (allowed_domains.isEmpty = true ∨
      allowed_domains.contains (netloc url) = true) ∧
    (∀ ext ∈ blacklist, str_endswith url ext = false) := by
  rw [should_crawl_url] at h
  by_cases h1 : visited_urls.contains (urldefrag url) = true
  · rw [if_pos h1] at h
    cases h
  · rw [if_neg h1] at h
    rw [Bool.not_eq_true] at h1
    by_cases h2 : (decide (depth > max_depth) || visited_urls.contains url) = true
    · rw [if_pos h2] at h
      cases h
    · rw [if_neg h2] at h
      have h2' : depth ≤ max_depth ∧ visited_urls.contains url = false := by
        rcases Bool.or_eq_false_iff.mp (Bool.not_eq_true _ |>.mp h2) with ⟨ha, hb⟩
        exact ⟨by simpa using of_decide_eq_false ha, hb⟩
      by_cases h3 : (!allowed_domains.isEmpty &&
          !(allowed_domains.contains (netloc url))) = true
      · rw [if_pos h3] at h
        cases h
      · rw [if_neg h3] at h
        have h3' : allowed_domains.isEmpty = true ∨
            allowed_domains.contains (netloc url) = true := by
          rcases Bool.and_eq_false_iff.mp (Bool.not_eq_true _ |>.mp h3) with ha | hb
          · left
            simpa using ha
          · right
            simpa using hb
        by_cases h4 : (!blacklist.isEmpty &&
            blacklist.any (fun ext => str_endswith url ext)) = true
        · rw [if_pos h4] at h
          cases h
        · have h4' : ∀ ext ∈ blacklist, str_endswith url ext = false := by
            intro ext hext
            rcases Bool.and_eq_false_iff.mp (Bool.not_eq_true _ |>.mp h4) with ha | hb
            · exfalso
              have : blacklist.isEmpty = true := by simpa using ha
              rw [List.isEmpty_iff] at this
              subst this
              cases hext
            · have := List.any_eq_false.mp hb
              simpa using this ext hext
          exact ⟨h1, h2'.1, h2'.2, h3', h4'⟩

/-- C10: when `crawl` is called with an absent or empty `allowed_domains`
list, the allow-list is replaced by the singleton holding the seed URL's
host, and every URL for which the queue loop creates a fetch task under that
allow-list has exactly the seed's host.  An empty allow-list does not mean
"crawl all domains". -/
theorem C10_empty_allowlist_restricts_to_seed_host (start_url : String)
    (queue : List (String × Nat)) (visited_urls : List String)
    (max_depth rate_limit : Nat) (blacklist : List String)
    (u : String) (dep : Nat)
    (h : (u, dep) ∈ (process_url_queue queue visited_urls max_depth
        (effective_allowed_domains start_url []) blacklist rate_limit []).1) :
    effective_allowed_domains start_url [] = [netloc start_url] ∧
    netloc u = netloc start_url := by
  refine ⟨rfl, ?_⟩
  rcases mem_tasks_process_url_queue queue visited_urls max_depth _ blacklist
      rate_limit [] u dep h with hacc | ⟨vis, hok⟩
  · cases hacc
  · have helim := should_crawl_url_true_elim u dep max_depth vis _ blacklist hok
    rcases helim.2.2.2.1 with hempty | hcontains
    · exfalso
      simp [effective_allowed_domains] at hempty
    · have hmem : netloc u ∈ [netloc start_url] := by
        simpa [effective_allowed_domains] using hcontains
      simpa using hmem

/-- Witness for C10: a queue entry for a second `a.test` page is dispatched
and its host equals the seed's. -/
theorem C10_empty_allowlist_restricts_to_seed_host_witness :
    ("http://a.test/page", 1) ∈ (process_url_queue [("http://a.test/page", 1)] []
        2 (effective_allowed_domains "http://a.test/" []) [] 10 []).1 ∧
    netloc "http://a.test/page" = netloc "http://a.test/" :=
  ⟨by decide,
    (C10_empty_allowlist_restricts_to_seed_host "http://a.test/"
      [("http://a.test/page", 1)] [] 2 10 [] "http://a.test/page" 1 (by decide)).2⟩

/-- C8 counterexample: with blacklist `[".png"]`,

* a URL whose *path* ends in `.png` but which carries a query string passes
  `should_crawl_url` (the source tests `url.endswith(ext)` on the full URL,
  `crawler.py` 31), contradicting "the URL is rejected if its path ends with
  any blacklisted extension"; and
* a discovered link ending in `.png` *is* enqueued by
  `process_completed_task` (`crawler.py` 111-118 filters only on the visited
  set, never on the blacklist), contradicting "never enqueued" — the link is
  only discarded later, at dispatch time. -/
theorem C8_counterexample :
    str_endswith (urlpath "http://a.test/img.png?page=1") ".png" = true ∧
    should_crawl_url "http://a.test/img.png?page=1" 1 2 [] ["a.test"] [".png"] = true ∧
    (process_completed_task ["http://a.test/img.png"] 0 2 ["http://a.test/"] []
        initial_stats).1 = [("http://a.test/img.png", 1)] := by
  refine ⟨by decide, by decide, by decide⟩

/-- C8 as amended: the blacklist is applied at dispatch time against the full
URL string: no task is ever created for a URL that ends (as a whole string)
with a blacklisted extension, so a discovered `.png` link, though it may be
enqueued, is never dispatched.  (A URL whose path ends in a blacklisted
extension but which has a query or fragment suffix escapes the filter.) -/
theorem C8_blacklist_blocks_dispatch (queue : List (String × Nat))
    (visited_urls : List String) (max_depth rate_limit : Nat)
    (allowed_domains blacklist : List String) (u ext : String) (dep : Nat)
    (hext : ext ∈ blacklist)
    (h : (u, dep) ∈ (process_url_queue queue visited_urls max_depth
        allowed_domains blacklist rate_limit []).1) :
    str_endswith u ext = false := by
  rcases mem_tasks_process_url_queue queue visited_urls max_depth
      allowed_domains blacklist rate_limit [] u dep h with hacc | ⟨vis, hok⟩
  · cases hacc
  · exact (should_crawl_url_true_elim u dep max_depth vis allowed_domains
      blacklist hok).2.2.2.2 ext hext

/-- Witness for C8: with blacklist `[".png"]` the page URL is dispatched and
does not end in `.png`. -/
theorem C8_blacklist_blocks_dispatch_witness :
    (".png" ∈ ([".png"] : List String)) ∧
    ("http://a.test/page", 0) ∈ (process_url_queue [("http://a.test/page", 0)] []
        1 ["a.test"] [".png"] 10 []).1 ∧
    str_endswith "http://a.test/page" ".png" = false :=
  ⟨by decide, by decide,
    C8_blacklist_blocks_dispatch [("http://a.test/page", 0)] [] 1 10 ["a.test"]
      [".png"] "http://a.test/page" ".png" 0 (by decide) (by decide)⟩

/-- C1: code evaluation at the failing input.  Two queue entries that differ
only in their fragment are *both* accepted and dispatched in the same
`process_url_queue` pass, although their fragment-stripped forms are equal:
`should_crawl_url` tests the stripped form against the visited set, but line
85 of `crawler.py` adds the *unstripped* URL, so the second URL's stripped
form is never found.  This contradicts the claim (and the source's own
comment "Remove URL fragments to avoid duplicate crawling"). -/
theorem C1_code_evaluation :
    (process_url_queue [("http://a.test/p#1", 0), ("http://a.test/p#2", 0)] []
        1 ["a.test"] [] 10 []).1
      = [("http://a.test/p#1", 0), ("http://a.test/p#2", 0)] ∧
    urldefrag "http://a.test/p#1" = urldefrag "http://a.test/p#2" ∧
    (process_url_queue [("http://a.test/p#1", 0), ("http://a.test/p#2", 0)] []
        1 ["a.test"] [] 10 []).2.1
      = ["http://a.test/p#1", "http://a.test/p#2"] := by
  refine ⟨by decide, by decide, by decide⟩

/-- Lemma: `fetch_url` always reaches the request body: the external-domain guard
can never fire, because a missing domain is inserted into `domain_statistics`
*before* the base-domain cross-check and every host contains its own base
domain as a substring.  The pre-request bookkeeping touches no error or
crawled counter. -/
theorem fetch_url_eq_request (url : String) (resp : Response) (content_size : Nat)
    (parse : Option (List String × String)) (stats : Stats) :
    ∃ stats' : Stats, ∃ v : DomainStats,
      fetch_url url resp content_size parse stats =
        fetch_url_request (netloc url) resp content_size parse stats' ∧
      alookup stats'.domain_statistics (netloc url) = some v ∧
      stats'.total_number_of_errors = stats.total_number_of_errors ∧
      stats'.total_number_of_urls_crawled = stats.total_number_of_urls_crawled ∧
      dom_errors stats' (netloc url) = dom_errors stats (netloc url) := by
  cases h : alookup stats.domain_statistics (netloc url) with
  | some v =>
      refine ⟨stats, v, ?_, h, rfl, rfl, rfl⟩
      simp [fetch_url, h]
  | none =>
      have hany : (stats.domain_statistics ++
          [(netloc url, fresh_domain_stats)]).any
            (fun p => str_contains_sub p.1 (base_domain (netloc url))) = true := by
        rw [List.any_append]
        simp [str_contains_sub_self_base]
      have happ : alookup (stats.domain_statistics ++
          [(netloc url, fresh_domain_stats)]) (netloc url)
            = some fresh_domain_stats :=
        alookup_append_right _ _ _ h
      refine ⟨{ stats with domain_statistics :=
          stats.domain_statistics ++ [(netloc url, fresh_domain_stats)] },
        fresh_domain_stats, ?_, happ, rfl, rfl, ?_⟩
      · simp [fetch_url, h, hany]
      · simp [dom_errors, happ, h]

/-- On a non-429 response with an allowed content type whose processing ends
in the error handler — a non-2xx status, or a 2xx whose parse raises — the
request body charges exactly one error to the global counter and one to the
domain counter, never touches the global crawled counter, and its result
carries no links and no title. -/
theorem fetch_request_error_counts (domain content_type : String)
    (status content_size : Nat) (ra : Option Nat)
    (parse : Option (List String × String)) (stats : Stats) (v0 : DomainStats)
    (hsome : alookup stats.domain_statistics domain = some v0)
    (h429 : status ≠ 429) (hct : content_type_allowed content_type = true)
    (herr : ¬(200 ≤ status ∧ status < 300) ∨ parse = none) :
    (fetch_url_request domain (.httpResp status ra content_type) content_size
        parse stats).stats.total_number_of_errors
      = stats.total_number_of_errors + 1 ∧
    dom_errors (fetch_url_request domain (.httpResp status ra content_type)
        content_size parse stats).stats domain = dom_errors stats domain + 1 ∧
    (fetch_url_request domain (.httpResp status ra content_type) content_size
        parse stats).stats.total_number_of_urls_crawled
      = stats.total_number_of_urls_crawled ∧
    (fetch_url_request domain (.httpResp status ra content_type) content_size
        parse stats).links = [] ∧
    (fetch_url_request domain (.httpResp status ra content_type) content_size
        parse stats).title = "" := by
  have h1 : alookup (reset_consecutive_429s stats domain).domain_statistics domain
      = some { v0 with consecutive_429s := 0 } := by
    simp [reset_consecutive_429s, alookup_aupdate_self, hsome]
  have h2 : alookup (record_status (reset_consecutive_429s stats domain) domain
      status).domain_statistics domain
      = some { v0 with
          consecutive_429s := 0
          status_code_statistics :=
            bump_histogram v0.status_code_statistics status
          total_number_of_crawled_urls := v0.total_number_of_crawled_urls + 1 } := by
    simp [record_status, alookup_aupdate_self, h1]
  have hred : fetch_url_request domain (.httpResp status ra content_type)
      content_size parse stats
      = { links := [], title := "", content_size := content_size
          requested := true, waited := 0
          stats := bump_errors (record_status (reset_consecutive_429s stats domain)
            domain status) domain } ∨
      fetch_url_request domain (.httpResp status ra content_type)
      content_size parse stats
      = { links := [], title := "", content_size := 0
          requested := true, waited := 0
          stats := bump_errors (record_status (reset_consecutive_429s stats domain)
            domain status) domain } := by
    rcases herr with h2xx | hparse
    · left
      simp [fetch_url_request, h429, hct, h2xx]
    · subst hparse
      by_cases h2xx : 200 ≤ status ∧ status < 300
      · right
        simp [fetch_url_request, h429, hct, h2xx]
      · left
        simp [fetch_url_request, h429, hct, h2xx]
  have hb : dom_errors (bump_errors (record_status
      (reset_consecutive_429s stats domain) domain status) domain) domain
      = dom_errors stats domain + 1 := by
    simp [dom_errors, bump_errors, alookup_aupdate_self, h2, hsome]
  rcases hred with hr | hr <;>
    rw [hr] <;>
    exact ⟨rfl, hb, rfl, rfl, rfl⟩

/-- C6: code evaluation at the failing input.  With only `a.test` tracked, a
fetch of `https://b.example/` — whose base domain `b.example` is shared by no
previously tracked host — is *not* skipped: `fetch_url` inserts `b.example`
into `domain_stats` before the cross-check, and because every host contains
its own base domain as a substring (first conjunct), the check passes against
the freshly inserted entry itself.  The request is issued and its links are
returned; the "Skipping external domain" branch is unreachable. -/
theorem C6_code_evaluation :
    (∀ d : String, str_contains_sub d (base_domain d) = true) ∧
    str_contains_sub "a.test" (base_domain "b.example") = false ∧
    (fetch_url "https://b.example/" (.httpResp 200 none "text/html") 5
        (some (["https://b.example/x"], "T"))
        { total_number_of_urls_crawled := 0, total_number_of_errors := 0
          status_code_statistics := []
          domain_statistics := [("a.test", fresh_domain_stats)] }).requested
      = true ∧
    (fetch_url "https://b.example/" (.httpResp 200 none "text/html") 5
        (some (["https://b.example/x"], "T"))
        { total_number_of_urls_crawled := 0, total_number_of_errors := 0
          status_code_statistics := []
          domain_statistics := [("a.test", fresh_domain_stats)] }).links
      = ["https://b.example/x"] := by
  refine ⟨str_contains_sub_self_base, by decide, by decide, by decide⟩

/-- C5 counterexample: a fetch of `http://a.test/x` answered with a plain 404
produces an error result (one global and one domain error), yet the
orchestrator's `process_completed_task` still raises the total crawled count
from 0 to 1 for that URL — the claim's "the total crawled count does not rise
for that URL" is false. -/
theorem C5_counterexample :
    (fetch_url "http://a.test/x" (.httpResp 404 none "text/html") 10
        (some ([], "")) initial_stats).stats.total_number_of_errors = 1 ∧
    dom_errors (fetch_url "http://a.test/x" (.httpResp 404 none "text/html") 10
        (some ([], "")) initial_stats).stats "a.test" = 1 ∧
    initial_stats.total_number_of_urls_crawled = 0 ∧
    (process_completed_task
        (fetch_url "http://a.test/x" (.httpResp 404 none "text/html") 10
          (some ([], "")) initial_stats).links 0 1 ["http://a.test/x"] []
        (fetch_url "http://a.test/x" (.httpResp 404 none "text/html") 10
          (some ([], "")) initial_stats).stats).2.total_number_of_urls_crawled
      = 1 := by
  refine ⟨by decide, by decide, by decide, by decide⟩

/-- C5 as amended: for every completed fetch whose result is an error (a
non-2xx, non-429 status with an allowed content type, or a network failure),
the global error count and the domain's error count each rise by exactly one
for that URL — but the total crawled count *also* rises by one for that URL,
because the orchestrator counts every normally-completed task as crawled. -/
theorem C5_error_result_counting (url content_type : String)
    (status content_size : Nat) (ra : Option Nat)
    (parse : Option (List String × String)) (stats : Stats)
    (depth max_depth : Nat) (visited_urls : List String)
    (queue : List (String × Nat))
    (h429 : status ≠ 429) (h2xx : ¬(200 ≤ status ∧ status < 300))
    (hct : content_type_allowed content_type = true) :
    ((fetch_url url (.httpResp status ra content_type) content_size parse
        stats).stats.total_number_of_errors = stats.total_number_of_errors + 1 ∧
      dom_errors (fetch_url url (.httpResp status ra content_type) content_size
        parse stats).stats (netloc url) = dom_errors stats (netloc url) + 1 ∧
      (process_completed_task (fetch_url url (.httpResp status ra content_type)
          content_size parse stats).links depth max_depth visited_urls queue
        (fetch_url url (.httpResp status ra content_type) content_size parse
          stats).stats).2.total_number_of_urls_crawled
        = stats.total_number_of_urls_crawled + 1) ∧
    ((fetch_url url Response.netError content_size parse
        stats).stats.total_number_of_errors = stats.total_number_of_errors + 1 ∧
      dom_errors (fetch_url url Response.netError content_size parse
        stats).stats (netloc url) = dom_errors stats (netloc url) + 1 ∧
      (process_completed_task (fetch_url url Response.netError content_size
          parse stats).links depth max_depth visited_urls queue
        (fetch_url url Response.netError content_size parse
          stats).stats).2.total_number_of_urls_crawled
        = stats.total_number_of_urls_crawled + 1) := by
  constructor
  · obtain ⟨stats', v, heq, hsome, herr, hcrawl, hde⟩ :=
      fetch_url_eq_request url (.httpResp status ra content_type) content_size
        parse stats
    obtain ⟨he1, he2, he3, _, _⟩ :=
      fetch_request_error_counts (netloc url) content_type status content_size
        ra parse stats' v hsome h429 hct (Or.inl h2xx)
    rw [heq]
    refine ⟨by rw [he1, herr], by rw [he2, hde], ?_⟩
    simp [process_completed_task, he3, hcrawl]
  · obtain ⟨stats', v, heq, hsome, herr, hcrawl, hde⟩ :=
      fetch_url_eq_request url Response.netError content_size parse stats
    rw [heq]
    have hb : dom_errors (bump_errors stats' (netloc url)) (netloc url)
        = dom_errors stats' (netloc url) + 1 := by
      simp [dom_errors, bump_errors, alookup_aupdate_self, hsome]
    refine ⟨?_, ?_, ?_⟩
    · simp [fetch_url_request, bump_errors, herr]
    · show dom_errors (bump_errors stats' (netloc url)) (netloc url)
        = dom_errors stats (netloc url) + 1
      rw [hb, hde]
    · simp [process_completed_task, fetch_url_request, bump_errors, hcrawl]

/-- Witness for C5 at a concrete input: a 404 for `http://a.test/x`. -/
theorem C5_error_result_counting_witness :
    ((404 : Nat) ≠ 429) ∧ (¬(200 ≤ (404 : Nat) ∧ (404 : Nat) < 300)) ∧
    content_type_allowed "text/html" = true ∧
    ((fetch_url "http://a.test/x" (.httpResp 404 none "text/html") 10
        (some ([], "")) initial_stats).stats.total_number_of_errors
      = initial_stats.total_number_of_errors + 1 ∧
    dom_errors (fetch_url "http://a.test/x" (.httpResp 404 none "text/html") 10
        (some ([], "")) initial_stats).stats (netloc "http://a.test/x")
      = dom_errors initial_stats (netloc "http://a.test/x") + 1 ∧
    (process_completed_task (fetch_url "http://a.test/x"
        (.httpResp 404 none "text/html") 10 (some ([], ""))
        initial_stats).links 0 1 [] []
      (fetch_url "http://a.test/x" (.httpResp 404 none "text/html") 10
        (some ([], "")) initial_stats).stats).2.total_number_of_urls_crawled
      = initial_stats.total_number_of_urls_crawled + 1) :=
  ⟨by decide, by decide, by decide,
    (C5_error_result_counting "http://a.test/x" "text/html" 404 10 none
      (some ([], "")) initial_stats 0 1 [] [] (by decide) (by decide)
      (by decide)).1⟩

/-- C9 counterexample: a 200 response of `http://a.test/q` whose content
parse raises lands in the generic `except Exception` handler
(`fetcher.py` 123-127), which *does* increment both the global and the
domain error counters (from 0 to 1 here) — contradicting "neither the global
error count nor the domain's error count is incremented for a parse
failure".  The result does degrade to the empty one. -/
theorem C9_counterexample :
    initial_stats.total_number_of_errors = 0 ∧
    (fetch_url "http://a.test/q" (.httpResp 200 none "text/html") 7 none
        initial_stats).stats.total_number_of_errors = 1 ∧
    dom_errors (fetch_url "http://a.test/q" (.httpResp 200 none "text/html") 7
        none initial_stats).stats "a.test" = 1 ∧
    (fetch_url "http://a.test/q" (.httpResp 200 none "text/html") 7 none
        initial_stats).links = [] ∧
    (fetch_url "http://a.test/q" (.httpResp 200 none "text/html") 7 none
        initial_stats).title = "" ∧
    (fetch_url "http://a.test/q" (.httpResp 200 none "text/html") 7 none
        initial_stats).content_size = 0 := by
  refine ⟨by decide, by decide, by decide, by decide, by decide, by decide⟩

/-- C9 as amended: a fetch whose 2xx response has an allowed content type but
whose parse fails degrades to an empty result (no links, no title, size 0)
and raises no exception to the caller — but the failure lands in the generic
exception handler, so the global error count and the domain's error count
each rise by one. -/
theorem C9_parse_failure_counts (url content_type : String)
    (status content_size : Nat) (ra : Option Nat) (stats : Stats)
    (h2xx : 200 ≤ status ∧ status < 300)
    (hct : content_type_allowed content_type = true) :
    (fetch_url url (.httpResp status ra content_type) content_size none
        stats).links = [] ∧
    (fetch_url url (.httpResp status ra content_type) content_size none
        stats).title = "" ∧
    (fetch_url url (.httpResp status ra content_type) content_size none
        stats).content_size = 0 ∧
    (fetch_url url (.httpResp status ra content_type) content_size none
        stats).stats.total_number_of_errors = stats.total_number_of_errors + 1 ∧
    dom_errors (fetch_url url (.httpResp status ra content_type) content_size
        none stats).stats (netloc url)
      = dom_errors stats (netloc url) + 1 := by
  have h429 : status ≠ 429 := by omega
  obtain ⟨stats', v, heq, hsome, herr, hcrawl, hde⟩ :=
    fetch_url_eq_request url (.httpResp status ra content_type) content_size
      none stats
  obtain ⟨he1, he2, _, hlinks, htitle⟩ :=
    fetch_request_error_counts (netloc url) content_type status content_size
      ra none stats' v hsome h429 hct (Or.inr rfl)
  rw [heq]
  refine ⟨hlinks, htitle, ?_, by rw [he1, herr], by rw [he2, hde]⟩
  simp [fetch_url_request, h429, hct, h2xx]

/-- Witness for C9 at a concrete input: status 200, content type
`text/html`, failing parse. -/
theorem C9_parse_failure_counts_witness :
    ((200 ≤ (200 : Nat) ∧ (200 : Nat) < 300) ∧
      content_type_allowed "text/html" = true) ∧
    ((fetch_url "http://a.test/q" (.httpResp 200 none "text/html") 7 none
        initial_stats).links = [] ∧
    (fetch_url "http://a.test/q" (.httpResp 200 none "text/html") 7 none
        initial_stats).title = "" ∧
    (fetch_url "http://a.test/q" (.httpResp 200 none "text/html") 7 none
        initial_stats).content_size = 0 ∧
    (fetch_url "http://a.test/q" (.httpResp 200 none "text/html") 7 none
        initial_stats).stats.total_number_of_errors
      = initial_stats.total_number_of_errors + 1 ∧
    dom_errors (fetch_url "http://a.test/q" (.httpResp 200 none "text/html") 7
        none initial_stats).stats (netloc "http://a.test/q")
      = dom_errors initial_stats (netloc "http://a.test/q") + 1) :=
  ⟨⟨by decide, by decide⟩,
    C9_parse_failure_counts "http://a.test/q" "text/html" 200 7 none
      initial_stats (by decide) (by decide)⟩

/-! ### Retry policy facts (claim C3) -/

theorem retry_request_attempts_le (transport : Nat → Nat) :
    ∀ retriesLeft attempt : Nat,
      (retry_request transport attempt retriesLeft).2 ≤ attempt + retriesLeft + 1 := by
  intro r
  induction r with
  | zero =>
      intro a
      simp [retry_request]
  | succ r ih =>
      intro a
      simp only [retry_request]
      split
      · have := ih (a + 1)
        omega
      · simp

/-- C3: the retry policy.  The request wrapper configured at
`crawler.py` 149-155 (attempts = `max_retries`, start 1s, factor 2, cap 10s,
retryable statuses {500, 502, 503, 504}) makes at most `maxRetries` retries
beyond the first attempt; its backoff starts at 1s, doubles per attempt and
is capped at 10s; the transport answering 503, 503, 503, 200 under
`maxRetries = 3` ends with status 200 after 4 attempts, and the crawl then
counts that URL as exactly one crawled URL with zero errors; and a transport
that never stops failing exhausts its retries into a single error increment
(while the URL is still counted once, not once per attempt). -/
theorem C3_retry_policy :
    (∀ transport : Nat → Nat, ∀ maxRetries : Nat,
      (retry_result transport maxRetries).2 ≤ maxRetries + 1) ∧
    retry_statuses = [500, 502, 503, 504] ∧
    backoff_timeout 0 = 1 ∧
    (∀ k : Nat, backoff_timeout (k + 1)
      = min (retry_factor * backoff_timeout k) retry_max_timeout) ∧
    (∀ k : Nat, backoff_timeout k ≤ 10) ∧
    retry_result transport_503_then_200 3 = (200, 4) ∧
    ((process_completed_task
        (fetch_url "http://a.test/"
          (.httpResp (retry_result transport_503_then_200 3).1 none "text/html")
          5 (some (["http://a.test/x"], "Title")) initial_stats).links
        0 1 ["http://a.test/"] []
        (fetch_url "http://a.test/"
          (.httpResp (retry_result transport_503_then_200 3).1 none "text/html")
          5 (some (["http://a.test/x"], "Title"))
          initial_stats).stats).2.total_number_of_urls_crawled = 1 ∧
      (process_completed_task
        (fetch_url "http://a.test/"
          (.httpResp (retry_result transport_503_then_200 3).1 none "text/html")
          5 (some (["http://a.test/x"], "Title")) initial_stats).links
        0 1 ["http://a.test/"] []
        (fetch_url "http://a.test/"
          (.httpResp (retry_result transport_503_then_200 3).1 none "text/html")
          5 (some (["http://a.test/x"], "Title"))
          initial_stats).stats).2.total_number_of_errors = 0) ∧
    (retry_result (fun _ => 503) 3 = (503, 4) ∧
      (fetch_url "http://a.test/"
        (.httpResp (retry_result (fun _ => 503) 3).1 none "text/html") 5
        (some ([], "")) initial_stats).stats.total_number_of_errors = 1 ∧
      (process_completed_task
        (fetch_url "http://a.test/"
          (.httpResp (retry_result (fun _ => 503) 3).1 none "text/html") 5
          (some ([], "")) initial_stats).links 0 1 ["http://a.test/"] []
        (fetch_url "http://a.test/"
          (.httpResp (retry_result (fun _ => 503) 3).1 none "text/html") 5
          (some ([], "")) initial_stats).stats).2.total_number_of_urls_crawled
        = 1) := by
  refine ⟨?_, rfl, rfl, ?_, ?_, by decide, ⟨by decide, by decide⟩, ?_⟩
  · intro transport maxRetries
    simpa [retry_result] using retry_request_attempts_le transport maxRetries 0
  · intro k
    simp only [backoff_timeout, retry_start_timeout, retry_factor,
      retry_max_timeout, Nat.one_mul]
    rw [pow_succ]
    omega
  · intro k
    simp [backoff_timeout, retry_max_timeout]
  · refine ⟨by decide, by decide, by decide⟩
